import Mathlib

/-!
Verification of `specklepy/objects/units.py`: a table-driven unit registry
mapping alias strings and integer encodings to a closed enumeration of
canonical units, with scale-factor computation between units.

Python floats appearing in `UNIT_SCALE` are embedded as exact rationals
(the decimal literals of the source); Python exceptions are embedded as
`Except` errors, one constructor per raise site.
-/

set_option autoImplicit false
set_option maxRecDepth 20000

deriving instance DecidableEq for Except

namespace Specklepy

/-- The `Units` enumeration of the source: 15 canonical units. -/
inductive Units where
  | mm
  | cm
  | m
  | km
  | inches
  | feet
  | yards
  | miles
  | none
  | sqm
  | cbm
  | percent
  | watts
  | watts_per_sqm
  | liters_per_sec_sqm
deriving DecidableEq, Repr, Fintype

/-- The exceptions the module raises: `SpeckleInvalidUnitException` from
`get_units_from_string`, the two `SpeckleException` raise sites of
`get_units_from_encoding` (unknown encoding) and `get_encoding_from_units`
(missing encoding), and the `ValueError` of `get_scale_factor_to_meters`. -/
inductive SpeckleError where
  | invalidUnit
  | unknownEncoding
  | missingEncoding
  | invalidUnitValue
deriving DecidableEq, Repr

/-- A Python value passed to `get_units_from_string`: the function checks
`isinstance(unit, str)`, so we embed its argument as a string or a
non-string (an integer suffices for the behaviours at issue). -/
inductive PyVal where
  | str (s : String)
  | int (n : Int)
deriving DecidableEq, Repr

/-- The argument type of `get_encoding_from_units`: `Union[Units, str, None]`. -/
inductive UnitArg where
  | unit (u : Units)
  | str (s : String)
  | none
deriving DecidableEq, Repr

/-- Python's `str.lower`, exact on the ASCII-plus-`²³·` character set the
alias table uses (the non-ASCII characters present have no lowercase form). -/
def strLower (s : String) : String :=
  String.mk (s.data.map Char.toLower)

/-- The `UNITS_STRINGS` alias table, in source (dict insertion) order. -/
def UNITS_STRINGS : List (Units × List String) :=
  [ (Units.mm, ["mm", "mil", "millimeters", "millimetres"])
  , (Units.cm, ["cm", "centimetre", "centimeter", "centimetres", "centimeters"])
  , (Units.m, ["m", "meter", "meters", "metre", "metres"])
  , (Units.km, ["km", "kilometer", "kilometre", "kilometers", "kilometres"])
  , (Units.inches, ["in", "inch", "inches"])
  , (Units.feet, ["ft", "foot", "feet"])
  , (Units.yards, ["yd", "yard", "yards"])
  , (Units.miles, ["mi", "mile", "miles"])
  , (Units.none, ["none", "null"])
  , (Units.sqm, ["sqm", "m²", "square meter", "square meters"])
  , (Units.cbm, ["cbm", "m³", "cubic meter", "cubic meters"])
  , (Units.percent, ["percent", "%"])
  , (Units.watts, ["W", "watt", "watts"])
  , (Units.watts_per_sqm, ["W/m²", "watts per square meter"])
  , (Units.liters_per_sec_sqm, ["L/(s·m²)", "liters per second per square meter"])
  ]

/-- The `UNITS_ENCODINGS` table: keys are `Units` members plus the Python
`None` key (embedded as `Option.none`), in source order. -/
def UNITS_ENCODINGS : List (Option Units × Int) :=
  [ (some Units.none, 0)
  , (Option.none, 0)
  , (some Units.mm, 1)
  , (some Units.cm, 2)
  , (some Units.m, 3)
  , (some Units.km, 4)
  , (some Units.inches, 5)
  , (some Units.feet, 6)
  , (some Units.yards, 7)
  , (some Units.miles, 8)
  , (some Units.sqm, 9)
  , (some Units.cbm, 10)
  , (some Units.percent, 11)
  , (some Units.watts, 12)
  , (some Units.watts_per_sqm, 13)
  , (some Units.liters_per_sec_sqm, 14)
  ]

/-- The `UNIT_SCALE` table; the Python float literals as exact rationals. -/
def UNIT_SCALE : List (Units × ℚ) :=
  [ (Units.none, 1)
  , (Units.mm, 0.001)
  , (Units.cm, 0.01)
  , (Units.m, 1.0)
  , (Units.km, 1000.0)
  , (Units.inches, 0.0254)
  , (Units.feet, 0.3048)
  , (Units.yards, 0.9144)
  , (Units.miles, 1609.340)
  , (Units.sqm, 1.0)
  , (Units.cbm, 1.0)
  , (Units.percent, 0.01)
  , (Units.watts, 1.0)
  , (Units.watts_per_sqm, 1.0)
  , (Units.liters_per_sec_sqm, 1.0)
  ]

/-- `get_units_from_string`: rejects non-strings, lowercases the input, and
returns the first alias-table entry whose (as-stored) alias list contains
the lowered string; otherwise raises `SpeckleInvalidUnitException`. -/
def get_units_from_string (unit : PyVal) : Except SpeckleError Units :=
  match unit with
  | PyVal.int _ => Except.error SpeckleError.invalidUnit
  | PyVal.str s =>
    let lowered := strLower s
    match UNITS_STRINGS.find? (fun p => decide (lowered ∈ p.2)) with
    | some p => Except.ok p.1
    | Option.none => Except.error SpeckleError.invalidUnit

/-- `get_units_from_encoding`: first encoding-table entry whose value equals
the input; the Python `name or Units.none` turns the `None` key into
`Units.none`; raises `SpeckleException` (unknown encoding) if no entry
matches. -/
def get_units_from_encoding (unit : Int) : Except SpeckleError Units :=
  match UNITS_ENCODINGS.find? (fun p => decide (unit = p.2)) with
  | some p => Except.ok (p.1.getD Units.none)
  | Option.none => Except.error SpeckleError.unknownEncoding

/-- The alias-resolution loop of `get_encoding_from_units`: a string input
is compared (case-sensitively, `unit in aliases`) against every alias list;
each match overwrites `maybe_sanitized_unit`, so the last match wins; an
unresolved string is kept as-is. -/
def sanitizeUnitArg (unit : UnitArg) : UnitArg :=
  match unit with
  | UnitArg.str s =>
    UNITS_STRINGS.foldl
      (fun acc p => if s ∈ p.2 then UnitArg.unit p.1 else acc)
      (UnitArg.str s)
  | other => other

/-- `get_encoding_from_units`: alias-resolves string inputs, then looks the
result up in `UNITS_ENCODINGS` (whose keys are `Units` members and `None`;
a still-unresolved string is never a key, so the dict lookup raises
`KeyError`, re-raised as `SpeckleException` / missing encoding). -/
def get_encoding_from_units (unit : UnitArg) : Except SpeckleError Int :=
  match sanitizeUnitArg unit with
  | UnitArg.unit u =>
    match UNITS_ENCODINGS.find? (fun p => decide (p.1 = some u)) with
    | some p => Except.ok p.2
    | Option.none => Except.error SpeckleError.missingEncoding
  | UnitArg.none =>
    match UNITS_ENCODINGS.find? (fun p => decide (p.1 = Option.none)) with
    | some p => Except.ok p.2
    | Option.none => Except.error SpeckleError.missingEncoding
  | UnitArg.str _ => Except.error SpeckleError.missingEncoding

/-- `get_scale_factor_to_meters`: direct `UNIT_SCALE` lookup, raising
`ValueError` when the argument has no entry. -/
def get_scale_factor_to_meters (fromUnits : Units) : Except SpeckleError ℚ :=
  match UNIT_SCALE.find? (fun p => decide (p.1 = fromUnits)) with
  | some p => Except.ok p.2
  | Option.none => Except.error SpeckleError.invalidUnitValue

/-- `get_scale_factor`: quotient of the two scale-to-meters factors, with
either lookup's exception propagating (left operand evaluated first). -/
def get_scale_factor (fromUnits toUnits : Units) : Except SpeckleError ℚ :=
  match get_scale_factor_to_meters fromUnits with
  | Except.error e => Except.error e
  | Except.ok a =>
    match get_scale_factor_to_meters toUnits with
    | Except.error e => Except.error e
    | Except.ok b => Except.ok (a / b)

/-- `get_scale_factor_from_string`: the string-based overload, composing
`get_units_from_string` with `get_scale_factor`. -/
def get_scale_factor_from_string (fromUnits toUnits : PyVal) :
    Except SpeckleError ℚ :=
  match get_units_from_string fromUnits with
  | Except.error e => Except.error e
  | Except.ok a =>
    match get_units_from_string toUnits with
    | Except.error e => Except.error e
    | Except.ok b => get_scale_factor a b

/-! ## IEEE-754 binary64 model

The scale factors are Python floats, so the program's arithmetic is
IEEE-754 binary64 with round-to-nearest, ties-to-even. A finite double is
embedded as the exact rational it denotes, and correct rounding is
characterized as distance minimization over the doubles; away from ties
the minimizer is unique, so `roundsUniquely` pins the exact IEEE-754
result of a division or of parsing a decimal literal. The rational-valued
functions above are the exact-arithmetic reading of the same code. -/

/-- A finite IEEE-754 binary64 value, as the exact rational it denotes:
an integer significand of magnitude below `2^53` times a power of two in
the double exponent range. -/
def FiniteF64 (d : ℚ) : Prop :=
  ∃ m e : ℤ, |m| < 2 ^ 53 ∧ -1074 ≤ e ∧ e ≤ 971 ∧ d = m * 2 ^ e

/-- `d` is a nearest binary64 value to the real number `x`. -/
def roundsToNearest (x d : ℚ) : Prop :=
  FiniteF64 d ∧ ∀ c : ℚ, FiniteF64 c → |x - d| ≤ |x - c|

/-- `d` is the unique nearest binary64 value to `x`: for `x` not a tie,
this is exactly what IEEE-754 round-to-nearest returns for an operation
whose exact result is `x`. -/
def roundsUniquely (x d : ℚ) : Prop :=
  roundsToNearest x d ∧ ∀ c : ℚ, roundsToNearest x c → c = d

/-! ## Helper lemmas -/

/-- The `UNIT_SCALE` table read as a total function, for stating lemmas. -/
def scaleOf : Units → ℚ
  | Units.none => 1
  | Units.mm => 0.001
  | Units.cm => 0.01
  | Units.m => 1.0
  | Units.km => 1000.0
  | Units.inches => 0.0254
  | Units.feet => 0.3048
  | Units.yards => 0.9144
  | Units.miles => 1609.340
  | Units.sqm => 1.0
  | Units.cbm => 1.0
  | Units.percent => 0.01
  | Units.watts => 1.0
  | Units.watts_per_sqm => 1.0
  | Units.liters_per_sec_sqm => 1.0

/-- The `UNIT_SCALE` lookup never misses and agrees with `scaleOf`. -/
theorem scale_lookup (u : Units) :
    get_scale_factor_to_meters u = Except.ok (scaleOf u) := by
  cases u <;> rfl

/-- No entry of `UNIT_SCALE` is zero. -/
theorem scaleOf_ne_zero (u : Units) : scaleOf u ≠ 0 := by
  cases u <;> norm_num [scaleOf]

/-- Every binary64 value inside the binade `[2^E, 2^(E+1)]` lies on the
grid of integer multiples of `2^(E-52)`. -/
theorem finiteF64_mem_grid (c : ℚ) (E : ℤ) (hc : FiniteF64 c)
    (h1 : 2 ^ E ≤ c) (h2 : c ≤ 2 ^ (E + 1)) :
    ∃ k : ℤ, c = k * 2 ^ (E - 52) := by
  obtain ⟨m, e, hm, -, -, rfl⟩ := hc
  by_cases hcase : E - 52 ≤ e
  · refine ⟨m * 2 ^ (e - (E - 52)).toNat, ?_⟩
    have ht : ((e - (E - 52)).toNat : ℤ) = e - (E - 52) :=
      Int.toNat_of_nonneg (by omega)
    push_cast
    rw [mul_assoc, ← zpow_natCast (2:ℚ) (e - (E - 52)).toNat, ht,
      ← zpow_add₀ (by norm_num : (2:ℚ) ≠ 0),
      show e - (E - 52) + (E - 52) = e by omega]
  · exfalso
    have hepos : (0:ℚ) < 2 ^ e := zpow_pos (by norm_num) e
    have hdiv : (2:ℚ) ^ E / 2 ^ e ≤ (m:ℚ) := (div_le_iff₀ hepos).mpr h1
    rw [← zpow_sub₀ (by norm_num : (2:ℚ) ≠ 0)] at hdiv
    have h53 : (2:ℚ) ^ (53:ℤ) ≤ (2:ℚ) ^ (E - e) :=
      zpow_le_zpow_right₀ (by norm_num) (by omega)
    have hpow : (2:ℚ) ^ (53:ℤ) = ((2 ^ 53 : ℤ) : ℚ) := by norm_num
    have hmq : (m:ℚ) < ((2 ^ 53 : ℤ) : ℚ) := by
      exact_mod_cast lt_of_le_of_lt (le_abs_self m) hm
    rw [hpow] at h53
    linarith

/-- Half-ulp criterion: a grid point `d = j * 2^(E-52)` lying strictly
within half an ulp of `x`, with `x` buffered inside the binade
`[2^E, 2^(E+1)]`, is the unique nearest binary64 value to `x`. -/
theorem roundsUniquely_of_half_ulp (x d : ℚ) (E j : ℤ)
    (hj0 : 0 ≤ j) (hj : j < 2 ^ 53) (hE1 : -1022 ≤ E) (hE2 : E ≤ 1023)
    (hd : d = j * 2 ^ (E - 52))
    (hnear : |x - d| < 2 ^ (E - 53))
    (hlo : 2 ^ E + 2 ^ (E - 53) ≤ x)
    (hhi : x ≤ 2 ^ (E + 1) - 2 ^ (E - 53)) :
    roundsUniquely x d := by
  have hfin : FiniteF64 d :=
    ⟨j, E - 52, by rwa [abs_of_nonneg hj0], by omega, by omega, hd⟩
  have hgpos : (0:ℚ) < 2 ^ (E - 52) := zpow_pos (by norm_num) _
  have hhalfpos : (0:ℚ) < 2 ^ (E - 53) := zpow_pos (by norm_num) _
  have hdouble : (2:ℚ) ^ (E - 52) = 2 * 2 ^ (E - 53) := by
    rw [show E - 52 = (E - 53) + 1 by omega,
      zpow_add_one₀ (by norm_num : (2:ℚ) ≠ 0)]
    ring
  have hgrid_far : ∀ k : ℤ, k ≠ j → 2 ^ (E - 52) ≤ |(k : ℚ) * 2 ^ (E - 52) - d| := by
    intro k hkj
    have hone : (1:ℚ) ≤ |(k:ℚ) - (j:ℚ)| := by
      exact_mod_cast Int.one_le_abs (sub_ne_zero.mpr hkj)
    rw [hd, ← sub_mul, abs_mul, abs_of_pos hgpos]
    nlinarith
  constructor
  · refine ⟨hfin, ?_⟩
    intro c hc
    rcases lt_or_le c (2 ^ E) with hclo | hcge
    · have hxc : 2 ^ (E - 53) < x - c := by linarith
      have : x - c ≤ |x - c| := le_abs_self _
      linarith
    rcases lt_or_le (2 ^ (E + 1)) c with hchi | hcle
    · have hxc : 2 ^ (E - 53) < c - x := by linarith
      have : c - x ≤ |x - c| := by rw [abs_sub_comm]; exact le_abs_self _
      linarith
    obtain ⟨k, hk⟩ := finiteF64_mem_grid c E hc hcge hcle
    by_cases hkj : k = j
    · have hcd : c = d := by rw [hk, hkj, ← hd]
      exact le_of_eq (by rw [hcd])
    · have hcd : 2 ^ (E - 52) ≤ |c - d| := by rw [hk]; exact hgrid_far k hkj
      have htri : |c - d| ≤ |c - x| + |x - d| := abs_sub_le c x d
      have habs : |c - x| = |x - c| := abs_sub_comm c x
      linarith
  · rintro c ⟨hcfin, hcmin⟩
    have h1 : |x - c| ≤ |x - d| := hcmin d hfin
    have h2 : |x - c| < 2 ^ (E - 53) := lt_of_le_of_lt h1 hnear
    obtain ⟨hcl, hcr⟩ := abs_lt.mp h2
    obtain ⟨k, hk⟩ := finiteF64_mem_grid c E hcfin (by linarith) (by linarith)
    by_cases hkj : k = j
    · rw [hk, hkj, ← hd]
    · exfalso
      have hcd : 2 ^ (E - 52) ≤ |c - d| := by rw [hk]; exact hgrid_far k hkj
      have htri : |c - d| ≤ |c - x| + |x - d| := abs_sub_le c x d
      have habs : |c - x| = |x - c| := abs_sub_comm c x
      linarith

/-- The alias-resolution fold leaves its accumulator unchanged when the
string matches no alias list. -/
theorem foldl_sanitize_of_no_match (s : String) (l : List (Units × List String))
    (acc : UnitArg) (h : ∀ p ∈ l, s ∉ p.2) :
    l.foldl (fun acc p => if s ∈ p.2 then UnitArg.unit p.1 else acc) acc = acc := by
  induction l generalizing acc with
  | nil => rfl
  | cons p l ih =>
    rw [List.foldl_cons, if_neg (h p (List.mem_cons_self p l))]
    exact ih acc fun q hq => h q (List.mem_cons_of_mem p hq)

/-! ## Claims -/

/-- C5: for every Unit `U`, `get_scale_factor U U` succeeds and returns
exactly `1.0`. -/
theorem scale_factor_refl :
    ∀ u : Units, get_scale_factor u u = Except.ok 1 := by
  intro u
  simp only [get_scale_factor, scale_lookup]
  rw [div_self (scaleOf_ne_zero u)]

/-- C6: for every pair of Units `A`, `B`, `get_scale_factor A B` equals the
reciprocal of `get_scale_factor B A` (both always succeed, and each is the
quotient of the two scale-to-base factors, so equality of the `Except`
values states exactly the claimed identity). -/
theorem scale_factor_reciprocal :
    ∀ a b : Units, get_scale_factor a b =
      Except.map (fun y => 1 / y) (get_scale_factor b a) := by
  intro a b
  simp only [get_scale_factor, scale_lookup, Except.map]
  rw [one_div_div]

/-- Counterexample for C6 as stated: the scale factors are Python floats,
and in the program's IEEE-754 binary64 arithmetic the reciprocal identity
fails at A = feet, B = inches. The table literals 0.3048 and 0.0254 are
stored as the doubles d₁ = 5490788665690109/2^54 and
d₂ = 7321051554253478/2^58; the program's scaleFactor(feet, inches) is
the correctly rounded quotient fl(d₁/d₂) = 6755399441055745/2^49
= 12.000000000000002, while 1/scaleFactor(inches, feet)
= fl(1/fl(d₂/d₁)) = 12.0, and the two differ (by one ulp, 2^-49). -/
theorem scale_factor_reciprocal_cex :
    scaleOf Units.feet = 0.3048 ∧
    scaleOf Units.inches = 0.0254 ∧
    roundsUniquely 0.3048 (5490788665690109 / 2 ^ 54) ∧
    roundsUniquely 0.0254 (7321051554253478 / 2 ^ 58) ∧
    roundsUniquely ((5490788665690109 / 2 ^ 54) / (7321051554253478 / 2 ^ 58))
      (6755399441055745 / 2 ^ 49) ∧
    roundsUniquely ((7321051554253478 / 2 ^ 58) / (5490788665690109 / 2 ^ 54))
      (6004799503160661 / 2 ^ 56) ∧
    roundsUniquely (1 / (6004799503160661 / 2 ^ 56)) 12 ∧
    (6755399441055745 / 2 ^ 49 : ℚ) ≠ 12 := by
  refine ⟨rfl, rfl, ?_, ?_, ?_, ?_, ?_, by norm_num⟩
  · exact roundsUniquely_of_half_ulp _ _ (-2) 5490788665690109
      (by norm_num) (by norm_num) (by norm_num) (by norm_num) (by norm_num)
      (by rw [abs_lt]; constructor <;> norm_num) (by norm_num) (by norm_num)
  · exact roundsUniquely_of_half_ulp _ _ (-6) 7321051554253478
      (by norm_num) (by norm_num) (by norm_num) (by norm_num) (by norm_num)
      (by rw [abs_lt]; constructor <;> norm_num) (by norm_num) (by norm_num)
  · exact roundsUniquely_of_half_ulp _ _ 3 6755399441055745
      (by norm_num) (by norm_num) (by norm_num) (by norm_num) (by norm_num)
      (by rw [abs_lt]; constructor <;> norm_num) (by norm_num) (by norm_num)
  · exact roundsUniquely_of_half_ulp _ _ (-4) 6004799503160661
      (by norm_num) (by norm_num) (by norm_num) (by norm_num) (by norm_num)
      (by rw [abs_lt]; constructor <;> norm_num) (by norm_num) (by norm_num)
  · exact roundsUniquely_of_half_ulp _ _ 3 6755399441055744
      (by norm_num) (by norm_num) (by norm_num) (by norm_num) (by norm_num)
      (by rw [abs_lt]; constructor <;> norm_num) (by norm_num) (by norm_num)

/-- C2: for every Unit `U` (each of which has an encoding-table entry),
decoding the encoding of `U` yields `U` back. -/
theorem decode_encode_roundtrip :
    ∀ u : Units,
      (match get_encoding_from_units (UnitArg.unit u) with
        | Except.ok n => get_units_from_encoding n
        | Except.error e => Except.error e) = Except.ok u := by
  intro u; cases u <;> decide

/-- C8: for every member `U` of the `Units` enumeration, `UNIT_SCALE` has
exactly one entry for `U`, and `get_scale_factor_to_meters U` succeeds
(the `ValueError` branch is unreachable) returning that unique factor. -/
theorem scale_to_meters_total :
    ∀ u : Units,
      UNIT_SCALE.filter (fun p => decide (p.1 = u)) = [(u, scaleOf u)] ∧
      get_scale_factor_to_meters u = Except.ok (scaleOf u) := by
  intro u; cases u <;> exact ⟨rfl, rfl⟩

/-- C9: the registry's concrete values match the spec's examples:
`parse("meters") = Units.m`, `encode(Units.m) = 3`,
`scaleFactor(m, mm) = 1000.0`, `scaleFactor(feet, m) = 0.3048`. -/
theorem registry_example_values :
    get_units_from_string (PyVal.str "meters") = Except.ok Units.m ∧
    get_encoding_from_units (UnitArg.unit Units.m) = Except.ok 3 ∧
    get_scale_factor Units.m Units.mm = Except.ok 1000 ∧
    get_scale_factor Units.feet Units.m = Except.ok (0.3048 : ℚ) := by
  refine ⟨by decide, by decide, ?_, ?_⟩ <;>
    · simp only [get_scale_factor, scale_lookup]
      norm_num [scaleOf]

/-- C10: the alias lists of distinct Units are pairwise disjoint: a string
occurring in the alias lists of two entries of `UNITS_STRINGS` forces the
entries to coincide, so alias resolution is unambiguous. -/
theorem alias_lists_disjoint :
    ∀ p ∈ UNITS_STRINGS, ∀ q ∈ UNITS_STRINGS, ∀ s ∈ p.2, s ∈ q.2 → p = q := by
  decide

/-- Finite key fact for C1: an alias that equals its own lowercasing is
found at its own table entry by the lookup loop of
`get_units_from_string`. -/
theorem find_lower_alias :
    ∀ p ∈ UNITS_STRINGS, ∀ s ∈ p.2, strLower s = s →
      UNITS_STRINGS.find? (fun q => decide (s ∈ q.2)) = some p := by decide

/-- C1 (amended): for every table entry and every alias `s` of it that
equals its own lowercasing, `get_units_from_string` maps every casing
variant of `s` (any string whose lowercasing equals that of `s`) to the
entry's Unit. The restriction to lowercase aliases is forced: the stored
mixed-case aliases (see the counterexample) are never matched. -/
theorem parse_alias_case_insensitive :
    ∀ p ∈ UNITS_STRINGS, ∀ s ∈ p.2, strLower s = s →
      ∀ t : String, strLower t = strLower s →
        get_units_from_string (PyVal.str t) = Except.ok p.1 := by
  intro p hp s hs hlow t ht
  simp only [get_units_from_string]
  rw [ht, hlow, find_lower_alias p hp s hs hlow]

/-- Witness for C1: "MM" is a casing variant of the alias "mm" of
`Units.mm`, and parsing it yields `Units.mm`. -/
theorem parse_alias_case_insensitive_witness :
    get_units_from_string (PyVal.str "MM") = Except.ok Units.mm :=
  parse_alias_case_insensitive
    (Units.mm, ["mm", "mil", "millimeters", "millimetres"]) (by decide)
    "mm" (by decide) (by decide) "MM" (by decide)

/-- Counterexample for C1 as stated: "W" is listed as an alias of
`Units.watts`, yet `get_units_from_string` rejects it (the input is
lowercased to "w", which the as-stored alias list does not contain). -/
theorem parse_alias_cex :
    (Units.watts, ["W", "watt", "watts"]) ∈ UNITS_STRINGS ∧
    get_units_from_string (PyVal.str "W") =
      Except.error SpeckleError.invalidUnit := by decide

/-- C3: decoding returns the Unit of any matching encoding-table entry
(in particular `decode 0 = Units.none`, never the `None` key), and fails
with the unknown-encoding error exactly on integers matching no entry,
e.g. 999. -/
theorem decode_spec :
    (∀ p ∈ UNITS_ENCODINGS, ∀ u : Units, p.1 = some u →
      get_units_from_encoding p.2 = Except.ok u) ∧
    get_units_from_encoding 0 = Except.ok Units.none ∧
    (∀ n : Int, (∀ p ∈ UNITS_ENCODINGS, n ≠ p.2) →
      get_units_from_encoding n = Except.error SpeckleError.unknownEncoding) ∧
    get_units_from_encoding 999 = Except.error SpeckleError.unknownEncoding := by
  refine ⟨by decide, by decide, ?_, by decide⟩
  intro n hn
  have h : UNITS_ENCODINGS.find? (fun p => decide (n = p.2)) = Option.none := by
    rw [List.find?_eq_none]
    intro p hp
    simpa using hn p hp
  simp only [get_units_from_encoding, h]

/-- Witness for C3: encoding 3 decodes to `Units.m`, and 17 (which matches
no entry) is rejected. -/
theorem decode_spec_witness :
    get_units_from_encoding 3 = Except.ok Units.m ∧
    get_units_from_encoding 17 = Except.error SpeckleError.unknownEncoding :=
  ⟨decode_spec.1 (some Units.m, 3) (by decide) Units.m rfl,
    decode_spec.2.2.1 17 (by decide)⟩

/-- C4 (amended): `get_encoding_from_units` maps `None` to 0 and a Unit to
its encoding-table entry; a string input is resolved through the alias
table by exact (case-sensitive) match and then encoded like the resolved
Unit; a string matching no alias exactly is kept as a raw string, which is
never an encoding-table key, so the lookup fails with the
missing-encoding error. -/
theorem encode_spec :
    get_encoding_from_units UnitArg.none = Except.ok 0 ∧
    (∀ u : Units, ∀ p ∈ UNITS_ENCODINGS, p.1 = some u →
      get_encoding_from_units (UnitArg.unit u) = Except.ok p.2) ∧
    (∀ p ∈ UNITS_STRINGS, ∀ s ∈ p.2,
      get_encoding_from_units (UnitArg.str s) =
        get_encoding_from_units (UnitArg.unit p.1)) ∧
    (∀ s : String, (∀ p ∈ UNITS_STRINGS, s ∉ p.2) →
      get_encoding_from_units (UnitArg.str s) =
        Except.error SpeckleError.missingEncoding) := by
  refine ⟨by decide, ?_, by decide, ?_⟩
  · intro u; cases u <;> decide
  · intro s h
    simp only [get_encoding_from_units, sanitizeUnitArg,
      foldl_sanitize_of_no_match s UNITS_STRINGS (UnitArg.str s) h]

/-- Witness for C4: the exact alias "meter" resolves to `Units.m` and is
encoded as 3. -/
theorem encode_spec_witness :
    get_encoding_from_units (UnitArg.str "meter") = Except.ok 3 := by
  have h := encode_spec.2.2.1
    (Units.m, ["m", "meter", "meters", "metre", "metres"]) (by decide)
    "meter" (by decide)
  rw [h]
  exact encode_spec.2.1 Units.m (some Units.m, 3) (by decide) rfl

/-- Counterexample for C4 as stated: "MM" is a casing variant of the alias
"mm" of `Units.mm` (whose encoding is 1), yet `get_encoding_from_units`
fails on it: the alias-resolution loop compares case-sensitively. -/
theorem encode_case_cex :
    (Units.mm, ["mm", "mil", "millimeters", "millimetres"]) ∈ UNITS_STRINGS ∧
    strLower "MM" = "mm" ∧
    get_encoding_from_units (UnitArg.unit Units.mm) = Except.ok 1 ∧
    get_encoding_from_units (UnitArg.str "MM") =
      Except.error SpeckleError.missingEncoding := by decide

/-- C7 (amended): `get_units_from_string` fails exactly on non-string
inputs and on strings whose lowercasing occurs in no stored alias list,
and every failure carries the invalid-unit error. (The claim's reading
"matches no alias" taken case-insensitively fails, see the
counterexample: the stored alias "W" matches itself case-insensitively
but is rejected.) -/
theorem parse_error_iff (v : PyVal) :
    (get_units_from_string v = Except.error SpeckleError.invalidUnit ↔
      (∃ n : Int, v = PyVal.int n) ∨
        ∃ s : String, v = PyVal.str s ∧
          ∀ p ∈ UNITS_STRINGS, strLower s ∉ p.2) ∧
    ∀ e : SpeckleError, get_units_from_string v = Except.error e →
      e = SpeckleError.invalidUnit := by
  cases v with
  | int n =>
    refine ⟨⟨fun _ => Or.inl ⟨n, rfl⟩, fun _ => rfl⟩, fun e he => ?_⟩
    exact (Except.error.inj he).symm
  | str s =>
    rcases hfind : UNITS_STRINGS.find? (fun p => decide (strLower s ∈ p.2))
      with _ | p
    · have hval : get_units_from_string (PyVal.str s) =
          Except.error SpeckleError.invalidUnit := by
        simp only [get_units_from_string, hfind]
      refine ⟨⟨fun _ => Or.inr ⟨s, rfl, ?_⟩, fun _ => hval⟩, fun e he => ?_⟩
      · intro p hp
        have hnp := List.find?_eq_none.mp hfind p hp
        simpa using hnp
      · rw [hval] at he
        exact (Except.error.inj he).symm
    · have hval : get_units_from_string (PyVal.str s) = Except.ok p.1 := by
        simp only [get_units_from_string, hfind]
      refine ⟨⟨fun h => ?_, fun h => ?_⟩, fun e he => ?_⟩
      · rw [hval] at h
        exact absurd h (by simp)
      · rcases h with ⟨n, hn⟩ | ⟨t, ht, hall⟩
        · exact absurd hn (by simp)
        · have hts : s = t := by injection ht
          subst hts
          have hmem : strLower s ∈ p.2 := by simpa using List.find?_some hfind
          exact absurd hmem (hall p (List.mem_of_find?_eq_some hfind))
      · rw [hval] at he
        exact absurd he (by simp)

/-- Witness for C7: a non-string input (the integer 123) is rejected with
the invalid-unit error. -/
theorem parse_error_iff_witness :
    get_units_from_string (PyVal.int 123) =
      Except.error SpeckleError.invalidUnit :=
  (parse_error_iff (PyVal.int 123)).1.mpr (Or.inl ⟨123, rfl⟩)

/-- Counterexample for C7 as stated: "W" is a string occurring verbatim in
the alias table (so it matches an alias under any case-insensitive
reading), yet `get_units_from_string` fails on it. -/
theorem parse_match_cex :
    (∃ p ∈ UNITS_STRINGS, "W" ∈ p.2) ∧
    get_units_from_string (PyVal.str "W") =
      Except.error SpeckleError.invalidUnit := by decide

/-- Witness for C10 at a concrete alias: "mm" occurs under `Units.mm`,
and the theorem applied there is satisfiable. -/
theorem alias_lists_disjoint_witness :
    (Units.mm, ["mm", "mil", "millimeters", "millimetres"]) =
      (Units.mm, ["mm", "mil", "millimeters", "millimetres"]) :=
  alias_lists_disjoint (Units.mm, ["mm", "mil", "millimeters", "millimetres"])
    (by decide) (Units.mm, ["mm", "mil", "millimeters", "millimetres"])
    (by decide) "mm" (by decide) (by decide)

end Specklepy
